import Mathlib

/-!
Verification of the gRPC client interceptor utilities (`src/grpc.rs`,
`src/grpc/interceptor.rs`): credential interceptors that insert
authentication metadata, a composite interceptor that runs a shared,
lock-protected, ordered collection of interceptors, and a channel builder.

The embedding is shallow: `tonic::Request<()>` keeps only its metadata map,
modelled as an association list with lowercase canonical keys (tonic metadata
keys are always lowercase); `tonic::Status` is a code plus message; the
`Arc<Mutex<Vec<BoxedInterceptor>>>` is a value carrying a poisoned flag, with
`lock` failing exactly when the flag is set.
-/

namespace GrpcUtils

/-- Byte validity test of `http::HeaderValue` (used by
`AsciiMetadataValue::from_str`): a byte is valid iff it is `\t` or is `≥ 32`
and not DEL.  Characters above 127 encode to UTF-8 bytes that all satisfy the
byte test, so the character-level test below agrees with the byte-level one. -/
def validValueChar (c : Char) : Bool :=
  (32 ≤ c.toNat && c.toNat != 127) || c.toNat == 9

/-- Whether a string parses as an `AsciiMetadataValue`
(`AsciiMetadataValue::from_str` succeeds). -/
def validValue (s : String) : Bool :=
  s.data.all validValueChar

/-- `AsciiMetadataValue::from_str`, modelled as returning the string itself
when every character is a valid header-value character. -/
def parseValue (s : String) : Option String :=
  if validValue s then some s else none

/-- Valid header-name characters of `http::HeaderName` (RFC 7230 `tchar`):
letters (uppercase accepted and normalized to lowercase), digits, and the
fifteen special characters, given here by code point. -/
def validKeyChar (c : Char) : Bool :=
  let n := c.toNat
  (97 ≤ n && n ≤ 122) || (65 ≤ n && n ≤ 90) || (48 ≤ n && n ≤ 57) ||
  n == 33 || n == 35 || n == 36 || n == 37 || n == 38 || n == 39 ||
  n == 42 || n == 43 || n == 45 || n == 46 || n == 94 || n == 95 ||
  n == 96 || n == 124 || n == 126

/-- Whether a string is accepted by `MetadataKey::<Ascii>::from_bytes`:
nonempty and made of valid header-name characters. -/
def validKey (s : String) : Bool :=
  !s.isEmpty && s.data.all validKeyChar

/-- ASCII-lowercase a string (written over the character list so that it
reduces in the kernel). -/
def lowerAscii (s : String) : String :=
  ⟨s.data.map Char.toLower⟩

/-- `MetadataKey::<Ascii>::from_bytes`, modelled as returning the canonical
(ASCII-lowercased) key on success: `http::HeaderName` normalizes uppercase
letters to lowercase, and header names compare case-insensitively. -/
def parseKey (s : String) : Option String :=
  if validKey s then some (lowerAscii s) else none

/-- The request metadata map (`tonic::metadata::MetadataMap`), restricted to
ASCII entries: an association list from canonical lowercase keys to values. -/
def Metadata := List (String × String)

instance : DecidableEq Metadata := by
  unfold Metadata
  infer_instance

/-- `MetadataMap::insert`: replace every entry stored under `k` by the single
entry `(k, v)`; all other entries are untouched. -/
def insertMeta (k v : String) (m : Metadata) : Metadata :=
  (m.filter (fun p => p.1 != k)) ++ [(k, v)]

/-- First (and, for maps built by `insertMeta`, only) value stored under a
key. -/
def lookupMeta (m : Metadata) (k : String) : Option String :=
  (m.find? (fun p => p.1 == k)).map (fun p => p.2)

/-- `tonic::Request<()>`: only the metadata matters to this code. -/
structure Request where
  metadata : Metadata
deriving DecidableEq

/-- `tonic::Code`, restricted to the codes this crate produces. -/
inductive Code where
  | invalidArgument
  | internal
deriving DecidableEq, Repr

/-- `tonic::Status`: a code together with a message. -/
structure Status where
  code : Code
  message : String
deriving DecidableEq, Repr

instance : DecidableEq (Except Status Request) := fun a b =>
  match a, b with
  | Except.ok x, Except.ok y =>
      if h : x = y then isTrue (by rw [h]) else isFalse (fun he => h (Except.ok.inj he))
  | Except.error x, Except.error y =>
      if h : x = y then isTrue (by rw [h]) else isFalse (fun he => h (Except.error.inj he))
  | Except.ok _, Except.error _ => isFalse (fun he => Except.noConfusion he)
  | Except.error _, Except.ok _ => isFalse (fun he => Except.noConfusion he)

/-- `Status::invalid_argument`. -/
def Status.invalid_argument (msg : String) : Status :=
  ⟨Code.invalidArgument, msg⟩

/-- `Status::internal`. -/
def Status.internal (msg : String) : Status :=
  ⟨Code.internal, msg⟩

/-- The constant `X_API_KEY`. -/
def X_API_KEY : String := "x-api-key"

/-- `APIKeyClientInterceptor`: an optional header-name override and the API
key. -/
structure APIKeyClientInterceptor where
  header_name : Option String
  api_key : String

/-- `APIKeyClientInterceptor::new`. -/
def APIKeyClientInterceptor.new (api_key : String) : APIKeyClientInterceptor :=
  ⟨none, api_key⟩

/-- Private `APIKeyClientInterceptor::header_name()`: the override if present,
else `X_API_KEY`. -/
def APIKeyClientInterceptor.headerName (self : APIKeyClientInterceptor) : String :=
  self.header_name.getD X_API_KEY

/-- `APIKeyClientInterceptor::header_key()`: parse the resolved header name as
a `MetadataKey`; on failure log and fall back to the static `X_API_KEY`. -/
def APIKeyClientInterceptor.header_key (self : APIKeyClientInterceptor) : String :=
  match parseKey self.headerName with
  | some key => key
  | none => X_API_KEY

/-- `<APIKeyClientInterceptor as Interceptor>::call`: parse the secret as an
ASCII metadata value; on success insert it under `header_key()` and return the
request, otherwise fail with the fixed invalid-argument message. -/
def APIKeyClientInterceptor.call (self : APIKeyClientInterceptor) (request : Request) :
    Except Status Request :=
  match parseValue self.api_key with
  | some value =>
      Except.ok { request with
        metadata := insertMeta self.header_key value request.metadata }
  | none => Except.error (Status.invalid_argument "Error while setting additional metadata")

/-- `BearerTokenInterceptor`: holds the token. -/
structure BearerTokenInterceptor where
  token : String

/-- `BearerTokenInterceptor::new`. -/
def BearerTokenInterceptor.new (token : String) : BearerTokenInterceptor :=
  ⟨token⟩

/-- `<BearerTokenInterceptor as Interceptor>::call`: format `"Bearer <token>"`,
parse it as a metadata value (failure becomes an invalid-argument status), and
insert it under the fixed `"authorization"` key. -/
def BearerTokenInterceptor.call (self : BearerTokenInterceptor) (req : Request) :
    Except Status Request :=
  match parseValue ("Bearer " ++ self.token) with
  | some value =>
      Except.ok { req with metadata := insertMeta "authorization" value req.metadata }
  | none => Except.error (Status.invalid_argument "Invalid Token")

/-- `BoxedInterceptor = Box<dyn Interceptor + Send + Sync>`: one of the
repository's interceptor kinds, or an arbitrary further implementation of the
`Interceptor` trait, modelled by its call function (the repository's own
interceptors never mutate themselves inside `call`). -/
inductive BoxedInterceptor where
  | apiKey (i : APIKeyClientInterceptor)
  | bearer (i : BearerTokenInterceptor)
  | custom (f : Request → Except Status Request)

/-- `Interceptor::call` through the trait object: the result together with the
member after the call (`call` takes `&mut self`; none of the kinds modelled
here writes to itself). -/
def BoxedInterceptor.call : BoxedInterceptor → Request → Except Status Request × BoxedInterceptor
  | BoxedInterceptor.apiKey i, req => (i.call req, BoxedInterceptor.apiKey i)
  | BoxedInterceptor.bearer i, req => (i.call req, BoxedInterceptor.bearer i)
  | BoxedInterceptor.custom f, req => (f req, BoxedInterceptor.custom f)

/-- `Interceptors = Arc<Mutex<Vec<BoxedInterceptor>>>`: the guarded vector
together with the mutex's poisoned flag. -/
structure MutexVec where
  poisoned : Bool
  value : List BoxedInterceptor

/-- `Mutex::lock`: the guarded vector, or the poison error. -/
def MutexVec.lock (m : MutexVec) : Except String (List BoxedInterceptor) :=
  if m.poisoned then Except.error "poisoned lock: another task failed inside"
  else Except.ok m.value

/-- The `interceptors!` macro: box the given interceptors and wrap them in a
fresh (hence unpoisoned) `Arc<Mutex<_>>`. -/
def interceptorsOf (l : List BoxedInterceptor) : MutexVec :=
  ⟨false, l⟩

/-- `CompositeInterceptor`: wraps the shared collection. -/
structure CompositeInterceptor where
  interceptors : MutexVec

/-- `CompositeInterceptor::new`. -/
def CompositeInterceptor.new (interceptors : MutexVec) : CompositeInterceptor :=
  ⟨interceptors⟩

/-- The `for interceptor in interceptors.iter_mut() { req = interceptor.call(req)? }`
loop: thread the request through the members in order, stopping at the first
error; returns the loop's result and the members after the iteration. -/
def runInterceptors : List BoxedInterceptor → Request →
    Except Status Request × List BoxedInterceptor
  | [], req => (Except.ok req, [])
  | i :: rest, req =>
      match (i.call req).1 with
      | Except.error e => (Except.error e, (i.call req).2 :: rest)
      | Except.ok req' =>
          let out := runInterceptors rest req'
          (out.1, (i.call req).2 :: out.2)

/-- `<CompositeInterceptor as Interceptor>::call`: lock the collection (a
poisoned lock becomes an internal status), run the members in order, and
return the result together with the composite after the call (`&mut self`). -/
def CompositeInterceptor.call (self : CompositeInterceptor) (req : Request) :
    Except Status Request × CompositeInterceptor :=
  match self.interceptors.lock with
  | Except.error e =>
      (Except.error (Status.internal ("Failed to lock interceptors: " ++ e)), self)
  | Except.ok l =>
      let out := runInterceptors l req
      (out.1, ⟨⟨self.interceptors.poisoned, out.2⟩⟩)

/-- Spec-side description of a successful pipeline: the members' calls applied
left to right as a monadic fold over `Except`. -/
def foldCalls (l : List BoxedInterceptor) (req : Request) : Except Status Request :=
  l.foldlM (fun r i => (i.call r).1) req

end GrpcUtils

namespace GrpcUtils

/-- `tonic::transport::ClientTlsConfig`; `accepted` records whether applying
it to the endpoint succeeds (an external concern of tonic). -/
structure ClientTlsConfig where
  accepted : Bool

/-- Transport-level errors (`tonic::transport::Error`, boxed by `channel`). -/
inductive GrpcError where
  | transport (msg : String)
deriving DecidableEq, Repr

/-- `tonic::transport::Endpoint`: the configuration knobs `channel` touches,
whether TLS has been applied, and whether a connection attempt would succeed
(an external concern: DNS, handshake, refusal). -/
structure Endpoint where
  keepAliveWhileIdle : Bool
  tcpKeepalive : Option Nat
  tls : Option ClientTlsConfig
  connectable : Bool

/-- A connected `tonic::transport::Channel`, remembering the endpoint
configuration it was built from. -/
structure Channel where
  endpoint : Endpoint

/-- `Endpoint::keep_alive_while_idle`. -/
def Endpoint.keep_alive_while_idle (e : Endpoint) (b : Bool) : Endpoint :=
  { e with keepAliveWhileIdle := b }

/-- `Endpoint::tcp_keepalive` (duration in seconds). -/
def Endpoint.tcp_keepalive (e : Endpoint) (d : Option Nat) : Endpoint :=
  { e with tcpKeepalive := d }

/-- Modelled from the spec: `Endpoint::tls_config` is tonic's, not this
repository's; it applies the TLS configuration and fails with a transport
error when the configuration cannot be applied. -/
def Endpoint.tls_config (e : Endpoint) (t : ClientTlsConfig) : Except GrpcError Endpoint :=
  if t.accepted then Except.ok { e with tls := some t }
  else Except.error (GrpcError.transport "invalid TLS configuration")

/-- Modelled from the spec: `Endpoint::connect` is tonic's, not this
repository's; it fails with a transport error when the connection attempt
fails. -/
def Endpoint.connect (e : Endpoint) : Except GrpcError Channel :=
  if e.connectable then Except.ok ⟨e⟩
  else Except.error (GrpcError.transport "connection failed")

/-- `channel` (src/grpc.rs): enable keep-alive while idle, set a 60-second TCP
keep-alive probe interval, apply TLS, connect; `?` propagates either
failure. -/
def channel (tls : ClientTlsConfig) (endpoint : Endpoint) : Except GrpcError Channel :=
  match ((endpoint.keep_alive_while_idle true).tcp_keepalive (some 60)).tls_config tls with
  | Except.error e => Except.error e
  | Except.ok e => e.connect

end GrpcUtils

namespace GrpcUtils

theorem BoxedInterceptor.call_snd (i : BoxedInterceptor) (req : Request) :
    (i.call req).2 = i := by
  cases i <;> rfl

theorem runInterceptors_cons_error (i : BoxedInterceptor) (rest : List BoxedInterceptor)
    (req : Request) (e : Status) (hc : (i.call req).1 = Except.error e) :
    runInterceptors (i :: rest) req = (Except.error e, (i.call req).2 :: rest) := by
  simp only [runInterceptors, hc]

theorem runInterceptors_cons_ok (i : BoxedInterceptor) (rest : List BoxedInterceptor)
    (req r : Request) (hc : (i.call req).1 = Except.ok r) :
    runInterceptors (i :: rest) req =
      ((runInterceptors rest r).1, (i.call req).2 :: (runInterceptors rest r).2) := by
  simp only [runInterceptors, hc]

theorem runInterceptors_snd (l : List BoxedInterceptor) (req : Request) :
    (runInterceptors l req).2 = l := by
  induction l generalizing req with
  | nil => rfl
  | cons i rest ih =>
      cases hc : (i.call req).1 with
      | error e => simp [runInterceptors_cons_error i rest req e hc, BoxedInterceptor.call_snd]
      | ok r => simp [runInterceptors_cons_ok i rest req r hc, BoxedInterceptor.call_snd, ih]

theorem runInterceptors_append_ok (l₁ l₂ : List BoxedInterceptor) (req req' : Request)
    (h : (runInterceptors l₁ req).1 = Except.ok req') :
    (runInterceptors (l₁ ++ l₂) req).1 = (runInterceptors l₂ req').1 := by
  induction l₁ generalizing req with
  | nil =>
      obtain rfl : req = req' := Except.ok.inj h
      rfl
  | cons i rest ih =>
      cases hc : (i.call req).1 with
      | error e =>
          rw [runInterceptors_cons_error i rest req e hc] at h
          exact absurd h (by simp)
      | ok r =>
          rw [runInterceptors_cons_ok i rest req r hc] at h
          rw [show (i :: rest) ++ l₂ = i :: (rest ++ l₂) from rfl,
            runInterceptors_cons_ok i (rest ++ l₂) req r hc]
          exact ih r h

theorem runInterceptors_fst_eq_foldCalls (l : List BoxedInterceptor) (req : Request) :
    (runInterceptors l req).1 = foldCalls l req := by
  induction l generalizing req with
  | nil => rfl
  | cons i rest ih =>
      cases hc : (i.call req).1 with
      | error e =>
          have h2 : foldCalls (i :: rest) req = Except.error e := by
            unfold foldCalls
            rw [List.foldlM_cons, hc]
            rfl
          rw [runInterceptors_cons_error i rest req e hc, h2]
      | ok r =>
          have h2 : foldCalls (i :: rest) req = foldCalls rest r := by
            unfold foldCalls
            rw [List.foldlM_cons, hc]
            rfl
          rw [runInterceptors_cons_ok i rest req r hc, h2]
          exact ih r

theorem composite_call_unpoisoned (l : List BoxedInterceptor) (req : Request) :
    (CompositeInterceptor.call ⟨⟨false, l⟩⟩ req).1 = (runInterceptors l req).1 := rfl

end GrpcUtils

namespace GrpcUtils

theorem lookupMeta_insertMeta_self (k v : String) (m : Metadata) :
    lookupMeta (insertMeta k v m) k = some v := by
  induction m with
  | nil => simp [lookupMeta, insertMeta, List.find?]
  | cons a t ih =>
      by_cases hak : a.1 = k
      · have h2 : (a.1 != k) = false := by simp [hak]
        simp only [insertMeta, List.filter_cons, h2, Bool.false_eq_true, if_false]
        exact ih
      · have h2 : (a.1 != k) = true := by simp [hak]
        have h1 : (a.1 == k) = false := by simp [hak]
        simp only [insertMeta, List.filter_cons, h2, if_true, List.cons_append]
        simp only [lookupMeta, List.find?, h1]
        exact ih

theorem lookupMeta_insertMeta_other (k v kq : String) (m : Metadata) (hne : kq ≠ k) :
    lookupMeta (insertMeta k v m) kq = lookupMeta m kq := by
  have h0 : (k == kq) = false := by simp [Ne.symm hne]
  induction m with
  | nil => simp [lookupMeta, insertMeta, List.find?, h0]
  | cons a t ih =>
      by_cases hak : a.1 = k
      · have h2 : (a.1 != k) = false := by simp [hak]
        have h3 : (a.1 == kq) = false := by simp [hak, Ne.symm hne]
        simp only [insertMeta, List.filter_cons, h2, Bool.false_eq_true, if_false]
        rw [show ((List.filter (fun p => p.1 != k) t) ++ [(k, v)] : Metadata) =
          insertMeta k v t from rfl, ih]
        simp [lookupMeta, List.find?, h3]
      · have h2 : (a.1 != k) = true := by simp [hak]
        simp only [insertMeta, List.filter_cons, h2, if_true, List.cons_append]
        by_cases haq : a.1 = kq
        · have h1 : (a.1 == kq) = true := by simp [haq]
          simp [lookupMeta, List.find?, h1]
        · have h1 : (a.1 == kq) = false := by simp [haq]
          simp only [lookupMeta, List.find?, h1]
          rw [show ((List.filter (fun p => p.1 != k) t) ++ [(k, v)] : Metadata) =
            insertMeta k v t from rfl]
          exact ih

/-- C1: if the members before position k all succeed (threading the request
through their mutations, reaching `req'`) and the k-th member fails with `e`,
the composite's call returns exactly `e` — no wrapping, no renaming — and the
result is the same for every list of members after position k (so none of
them is invoked); the failing member receives the request as mutated by the
members before it. -/
theorem composite_short_circuits_on_member_error
    (pre post : List BoxedInterceptor) (f : BoxedInterceptor)
    (req req' : Request) (e : Status)
    (hpre : (runInterceptors pre req).1 = Except.ok req')
    (hf : (f.call req').1 = Except.error e) :
    (CompositeInterceptor.call ⟨⟨false, pre ++ f :: post⟩⟩ req).1 = Except.error e := by
  rw [composite_call_unpoisoned]
  rw [runInterceptors_append_ok pre (f :: post) req req' hpre]
  rw [runInterceptors_cons_error f post req' e hf]

/-- Witness for C1: a fixed-key member succeeds, a failing member errors with
"boom", a bearer member follows; the composite returns exactly "boom". -/
theorem composite_short_circuit_witness :
    ((runInterceptors [BoxedInterceptor.apiKey ⟨none, "key"⟩] ⟨[]⟩).1 =
        Except.ok ⟨[("x-api-key", "key")]⟩) ∧
    (CompositeInterceptor.call ⟨⟨false,
        [BoxedInterceptor.apiKey ⟨none, "key"⟩,
         BoxedInterceptor.custom (fun _ => Except.error (Status.invalid_argument "boom")),
         BoxedInterceptor.bearer ⟨"token"⟩]⟩⟩ ⟨[]⟩).1 =
      Except.error (Status.invalid_argument "boom") :=
  ⟨rfl,
   composite_short_circuits_on_member_error
     [BoxedInterceptor.apiKey ⟨none, "key"⟩]
     [BoxedInterceptor.bearer ⟨"token"⟩]
     (BoxedInterceptor.custom (fun _ => Except.error (Status.invalid_argument "boom")))
     ⟨[]⟩ ⟨[("x-api-key", "key")]⟩ (Status.invalid_argument "boom") rfl rfl⟩

/-- C2: when every member succeeds, the composite's call is the left-to-right
monadic fold of the members' calls over the request; in particular the
composite over a fixed-key interceptor with secret "key" followed by a
bearer-token interceptor with token "token", applied to an empty request,
yields exactly the metadata entries x-api-key: key and
authorization: Bearer token. -/
theorem composite_applies_members_in_order :
    (∀ (l : List BoxedInterceptor) (req : Request),
        (CompositeInterceptor.call (CompositeInterceptor.new (interceptorsOf l)) req).1 =
          foldCalls l req) ∧
    (CompositeInterceptor.call (CompositeInterceptor.new (interceptorsOf
        [BoxedInterceptor.apiKey (APIKeyClientInterceptor.new "key"),
         BoxedInterceptor.bearer (BearerTokenInterceptor.new "token")])) ⟨[]⟩).1 =
      Except.ok ⟨[("x-api-key", "key"), ("authorization", "Bearer token")]⟩ := by
  constructor
  · intro l req
    exact runInterceptors_fst_eq_foldCalls l req
  · rfl

/-- C3: with a poisoned collection lock, the composite's call returns the
"internal" status describing the lock failure and leaves the composite
untouched; the outcome is the same whatever the members and the request are,
so no member is invoked and the request's metadata is not consulted or
mutated. -/
theorem composite_poisoned_lock_internal_error
    (l : List BoxedInterceptor) (req : Request) :
    CompositeInterceptor.call ⟨⟨true, l⟩⟩ req =
      (Except.error (Status.internal
        "Failed to lock interceptors: poisoned lock: another task failed inside"),
       (⟨⟨true, l⟩⟩ : CompositeInterceptor)) ∧
    (CompositeInterceptor.call ⟨⟨true, l⟩⟩ req).1 =
      (CompositeInterceptor.call ⟨⟨true, []⟩⟩ ⟨[]⟩).1 :=
  ⟨rfl, rfl⟩

/-- C8: the composite built (with a fresh lock) from the empty collection
returns the request unchanged and never fails. -/
theorem composite_empty_identity (req : Request) :
    CompositeInterceptor.call (CompositeInterceptor.new (interceptorsOf [])) req =
      (Except.ok req, CompositeInterceptor.new (interceptorsOf [])) := rfl

/-- C10: on every exit path (success, member failure, or poisoned lock) the
composite's call leaves the shared collection as it was: same poisoned flag
and the very same member list (hence same length, membership and order). -/
theorem composite_preserves_collection (c : CompositeInterceptor) (req : Request) :
    ((CompositeInterceptor.call c req).2).interceptors.value = c.interceptors.value ∧
    ((CompositeInterceptor.call c req).2).interceptors.poisoned = c.interceptors.poisoned := by
  obtain ⟨⟨p, l⟩⟩ := c
  cases p with
  | false =>
      constructor
      · show (runInterceptors l req).2 = l
        exact runInterceptors_snd l req
      · rfl
  | true => exact ⟨rfl, rfl⟩

/-- C4: for every secret that parses as an ASCII metadata value, the fixed-key
interceptor's call succeeds and returns the request with the unmodified secret
inserted (or overwritten) under the resolved header key; under the resolved
key the value is exactly the secret, and every other key reads as before. -/
theorem apiKey_call_inserts_secret (i : APIKeyClientInterceptor) (req : Request)
    (h : validValue i.api_key = true) :
    APIKeyClientInterceptor.call i req =
      Except.ok ⟨insertMeta i.header_key i.api_key req.metadata⟩ ∧
    lookupMeta (insertMeta i.header_key i.api_key req.metadata) i.header_key =
      some i.api_key ∧
    ∀ kq, kq ≠ i.header_key →
      lookupMeta (insertMeta i.header_key i.api_key req.metadata) kq =
        lookupMeta req.metadata kq := by
  refine ⟨?_, lookupMeta_insertMeta_self _ _ _,
    fun kq hkq => lookupMeta_insertMeta_other _ _ _ _ hkq⟩
  simp [APIKeyClientInterceptor.call, parseValue, h]

/-- Witness for C4: the secret "key" is a valid metadata value and is inserted
under "x-api-key" next to an unrelated entry. -/
theorem apiKey_call_witness :
    validValue "key" = true ∧
    APIKeyClientInterceptor.call ⟨none, "key"⟩ ⟨[("other", "v")]⟩ =
      Except.ok ⟨[("other", "v"), ("x-api-key", "key")]⟩ := by
  refine ⟨by decide, ?_⟩
  exact (apiKey_call_inserts_secret ⟨none, "key"⟩ ⟨[("other", "v")]⟩ (by decide)).1

/-- C5: the fixed-key interceptor's call returns the invalid-argument status
with the fixed message exactly when the configured secret does not parse as an
ASCII metadata value (and then no insertion happens: the error is the whole
result). -/
theorem apiKey_call_invalid_secret_iff (i : APIKeyClientInterceptor) (req : Request) :
    APIKeyClientInterceptor.call i req =
        Except.error (Status.invalid_argument "Error while setting additional metadata") ↔
      validValue i.api_key = false := by
  cases hv : validValue i.api_key with
  | true => simp [APIKeyClientInterceptor.call, parseValue, hv]
  | false => simp [APIKeyClientInterceptor.call, parseValue, hv]

/-- C6: `header_key` is total: without an override it returns "x-api-key"; with
an override that fails to parse as an ASCII header key it returns "x-api-key";
with an override that parses it returns the parsed override, which is the
override up to the ASCII-case normalization header names carry (metadata keys
are case-insensitive and stored lowercase). -/
theorem header_key_resolution (i : APIKeyClientInterceptor) :
    (i.header_name = none → i.header_key = X_API_KEY) ∧
    (∀ o, i.header_name = some o → parseKey o = none → i.header_key = X_API_KEY) ∧
    (∀ o k, i.header_name = some o → parseKey o = some k →
      i.header_key = k ∧ k = lowerAscii o) := by
  refine ⟨?_, ?_, ?_⟩
  · intro h
    unfold APIKeyClientInterceptor.header_key APIKeyClientInterceptor.headerName
    rw [h]
    rfl
  · intro o h hp
    unfold APIKeyClientInterceptor.header_key APIKeyClientInterceptor.headerName
    rw [h]
    show (match parseKey o with | some key => key | none => X_API_KEY) = X_API_KEY
    rw [hp]
  · intro o k h hp
    constructor
    · unfold APIKeyClientInterceptor.header_key APIKeyClientInterceptor.headerName
      rw [h]
      show (match parseKey o with | some key => key | none => X_API_KEY) = k
      rw [hp]
    · by_cases hv : validKey o = true
      · unfold parseKey at hp
        rw [if_pos hv] at hp
        exact (Option.some.inj hp).symm
      · unfold parseKey at hp
        rw [if_neg hv] at hp
        exact absurd hp (by simp)

/-- Witness for C6: no override gives "x-api-key"; the unparsable override
"bad name" degrades to "x-api-key"; the valid override "Alt-Key" is returned
(normalized to lowercase). -/
theorem header_key_resolution_witness :
    APIKeyClientInterceptor.header_key ⟨none, "key"⟩ = X_API_KEY ∧
    APIKeyClientInterceptor.header_key ⟨some "bad name", "key"⟩ = X_API_KEY ∧
    APIKeyClientInterceptor.header_key ⟨some "Alt-Key", "key"⟩ = "alt-key" :=
  ⟨(header_key_resolution ⟨none, "key"⟩).1 rfl,
   (header_key_resolution ⟨some "bad name", "key"⟩).2.1 "bad name" rfl (by decide),
   ((header_key_resolution ⟨some "Alt-Key", "key"⟩).2.2 "Alt-Key" "alt-key" rfl (by decide)).1⟩

/-- C7: for every token, the bearer-token interceptor either inserts the value
"Bearer " ++ token under the fixed key "authorization" and returns the mutated
request (when that value parses as a metadata value), or fails with the
invalid-argument status "Invalid Token" (when it does not). -/
theorem bearer_call_spec (t : BearerTokenInterceptor) (req : Request) :
    (validValue ("Bearer " ++ t.token) = true →
      BearerTokenInterceptor.call t req =
        Except.ok ⟨insertMeta "authorization" ("Bearer " ++ t.token) req.metadata⟩) ∧
    (validValue ("Bearer " ++ t.token) = false →
      BearerTokenInterceptor.call t req =
        Except.error (Status.invalid_argument "Invalid Token")) := by
  constructor
  · intro h
    simp [BearerTokenInterceptor.call, parseValue, h]
  · intro h
    simp [BearerTokenInterceptor.call, parseValue, h]

/-- Witness for C7: the token "token" formats to "Bearer token" and is
inserted under "authorization"; a newline token cannot be encoded and yields
the invalid-argument status. -/
theorem bearer_call_witness :
    (validValue ("Bearer " ++ "token") = true ∧
      BearerTokenInterceptor.call ⟨"token"⟩ ⟨[]⟩ =
        Except.ok ⟨[("authorization", "Bearer token")]⟩) ∧
    (validValue ("Bearer " ++ "\n") = false ∧
      BearerTokenInterceptor.call ⟨"\n"⟩ ⟨[]⟩ =
        Except.error (Status.invalid_argument "Invalid Token")) := by
  refine ⟨⟨by decide, ?_⟩, ⟨by decide, ?_⟩⟩
  · exact (bearer_call_spec ⟨"token"⟩ ⟨[]⟩).1 (by decide)
  · exact (bearer_call_spec ⟨"\n"⟩ ⟨[]⟩).2 (by decide)

/-- C9: every channel the establisher returns carries keep-alive-while-idle
set to true and a 60-second keep-alive probe interval, and when applying the
TLS configuration fails or the connection attempt fails, the establisher
returns a transport error. -/
theorem channel_spec (tls : ClientTlsConfig) (ep : Endpoint) :
    (∀ c, channel tls ep = Except.ok c →
      c.endpoint.keepAliveWhileIdle = true ∧ c.endpoint.tcpKeepalive = some 60) ∧
    (tls.accepted = false ∨ ep.connectable = false →
      ∃ m, channel tls ep = Except.error (GrpcError.transport m)) := by
  obtain ⟨ta⟩ := tls
  obtain ⟨ka, tk, tl, co⟩ := ep
  cases ta with
  | false =>
      refine ⟨?_, ?_⟩
      · intro c hc
        exact Except.noConfusion hc
      · intro _
        exact ⟨"invalid TLS configuration", rfl⟩
  | true =>
      cases co with
      | false =>
          refine ⟨?_, ?_⟩
          · intro c hc
            exact Except.noConfusion hc
          · intro _
            exact ⟨"connection failed", rfl⟩
      | true =>
          refine ⟨?_, ?_⟩
          · intro c hc
            have hc2 : Except.ok (⟨⟨true, some 60, some ⟨true⟩, true⟩⟩ : Channel) =
                Except.ok c := hc
            obtain rfl : (⟨⟨true, some 60, some ⟨true⟩, true⟩⟩ : Channel) = c :=
              Except.ok.inj hc2
            exact ⟨rfl, rfl⟩
          · intro h
            cases h with
            | inl h => exact Bool.noConfusion h
            | inr h => exact Bool.noConfusion h

/-- Witness for C9: a successful connection carries the keep-alive settings,
and a rejected TLS configuration yields a transport error. -/
theorem channel_spec_witness :
    ((⟨⟨true, some 60, some ⟨true⟩, true⟩⟩ : Channel).endpoint.keepAliveWhileIdle = true ∧
      (⟨⟨true, some 60, some ⟨true⟩, true⟩⟩ : Channel).endpoint.tcpKeepalive = some 60) ∧
    (∃ m, channel ⟨false⟩ ⟨false, none, none, true⟩ = Except.error (GrpcError.transport m)) :=
  ⟨(channel_spec ⟨true⟩ ⟨false, none, none, true⟩).1 ⟨⟨true, some 60, some ⟨true⟩, true⟩⟩ rfl,
   (channel_spec ⟨false⟩ ⟨false, none, none, true⟩).2 (Or.inl rfl)⟩

end GrpcUtils
